import Mathlib

set_option maxRecDepth 8000

/-!
Shallow embedding of the resilient ledger-client and protocol-codec layer of
the evernode JS client library, together with proofs about its behaviour.

The embedding covers:
* the address-subscription list (`subscribeToAddress` / `unsubscribeFromAddress`),
* the incoming-transaction dispatch of the connection manager,
* the hook-event extractor of the legacy `EvernodeHook` class,
* the hook config / moment (epoch) reader with its config cache,
* the `register` argument validation of `HostClient`,
* the finality wait loop (`waitForFinalTransactionOutcome`) and the
  `submitAndWait` entry points,
* cursor-based pagination (`requestWithPaging`),
* the retry-with-fee-escalation wrapper (`submitWithRetry`),
* multi-signature combination (`multiSign`).

Asynchronous network interaction is modelled by explicit oracles (functions
from a call counter to the observed response), and loops that the source
expresses as unbounded recursion are modelled with an explicit fuel
parameter plus an `outOfFuel` result, so that every definition is executable.
-/

/-! ### Address subscriptions (XrplApi #addressSubscriptions) -/

/-- An address subscription entry: the watched account address paired with the
identity of the registered handler.  The source stores the handler function
itself and compares it by reference identity; handler identity is modelled by
a numeric identifier. -/
structure AddressSub where
  address : String
  handler : Nat
deriving Repr, DecidableEq

/-- `subscribeToAddress(address, handler)` pushes a new `{address, handler}`
entry at the end of the subscription list (the network `subscribe` call it
also issues has no effect on the list and is not modelled). -/
def subscribeToAddress (subs : List AddressSub) (address : String) (handler : Nat) :
    List AddressSub :=
  subs ++ [⟨address, handler⟩]

/-- `subs.splice(i, 1)`: remove the element at position `i`. -/
def spliceOne (subs : List AddressSub) (i : Nat) : List AddressSub :=
  subs.take i ++ subs.drop (i + 1)

/-- The downward `for` loop of `unsubscribeFromAddress`: for `i` from
`subs.length - 1` down to `0`, splice out entry `i` when both its address and
its handler match.  The argument is the number of indices still to inspect. -/
def unsubscribeIter (address : String) (handler : Nat) :
    List AddressSub → Nat → List AddressSub
  | subs, 0 => subs
  | subs, i + 1 =>
    let subs' :=
      match subs[i]? with
      | some sub =>
        if sub.address = address ∧ sub.handler = handler then spliceOne subs i else subs
      | none => subs
    unsubscribeIter address handler subs' i

/-- `unsubscribeFromAddress(address, handler)`: removes every entry whose
address and handler both match (the network `unsubscribe` call is not
modelled). -/
def unsubscribeFromAddress (subs : List AddressSub) (address : String) (handler : Nat) :
    List AddressSub :=
  unsubscribeIter address handler subs subs.length

/-! ### Incoming transaction dispatch (XrplApi client.on("transaction")) -/

/-- The parts of an incoming push-notification transaction that the dispatch
logic inspects.  `destination` is the transaction destination after the
URITokenBuy offer-resolution prelude (for transaction types that carry an
explicit `Destination` it is just that field). -/
structure IncomingTx where
  validated : Bool
  transactionType : String
  destination : String
  engineResult : String
  engineResultMessage : String
deriving Repr, DecidableEq

/-- One callback invocation performed by the dispatcher: either a decoded
event delivery `handler(eventName, tx)` (the memo/hook-parameter
deserialisation of `tx` is a data-representation change and is not modelled),
or an error delivery `handler(eventName, null, message)` which carries no
decoded payload. -/
inductive HandlerCall where
  | event (handler : Nat) (eventName : String) (tx : IncomingTx)
  | failure (handler : Nat) (eventName : String) (message : String)
deriving Repr, DecidableEq

/-- `s.toLowerCase()` for the ASCII strings involved, written over the
character list so that it evaluates by definitional reduction. -/
def toLowerStr (s : String) : String :=
  ⟨s.data.map Char.toLower⟩

/-- The body of the `client.on("transaction", ...)` listener: only validated
transactions are processed; subscriptions whose address equals the
transaction destination are matched; on `tesSUCCESS` every match receives the
decoded event, otherwise every match receives an error callback carrying
`engine_result_message`. -/
def dispatchTransaction (subs : List AddressSub) (data : IncomingTx) : List HandlerCall :=
  if data.validated then
    let matched := subs.filter (fun s => s.address == data.destination)
    if matched.length > 0 then
      let eventName := toLowerStr data.transactionType
      if data.engineResult == "tesSUCCESS" then
        matched.map (fun s => HandlerCall.event s.handler eventName data)
      else
        matched.map (fun s => HandlerCall.failure s.handler eventName data.engineResultMessage)
    else []
  else []

/-! ### Evernode hook event extraction (EvernodeHook #extractEvernodeHookEvent)

The memo type / format string constants.  `REDEEM`, `REDEEM_REF`, `HOST_REG`,
`HOST_DEREG`, `TEXT` and `JSON` appear in the `evernode-common` module of the
sources; the remaining constants (`REDEEM_RESP`, `REFUND`, `AUDIT_REQ`,
`AUDIT_SUCCESS`, `BINARY`) are referenced by the extractor but their defining
module version is not among the sources, so representative distinct string
values are used — only their identity and distinctness matter below. -/

namespace MemoTypes

def REDEEM : String := "evnRedeem"

def REDEEM_REF : String := "evnRedeemRef"

def REDEEM_RESP : String := "evnRedeemResp"

def REFUND : String := "evnRefund"

def HOST_REG : String := "evnHostReg"

def HOST_DEREG : String := "evnHostDereg"

def AUDIT_REQ : String := "evnAuditRequest"

def AUDIT_SUCCESS : String := "evnAuditSuccess"

end MemoTypes

namespace MemoFormats

def BINARY : String := "binary"

def TEXT : String := "text/plain"

def JSON : String := "text/json"

end MemoFormats

/-- `EvernodeConstants.EVR`. -/
def EVR : String := "EVR"

/-- A transaction amount: either a native-drops string or an issued-currency
object (`typeof tx.Amount === 'object'` distinguishes the two in the source). -/
inductive TxAmount where
  | drops (v : String)
  | issued (currency issuer value : String)
deriving Repr, DecidableEq

def TxAmount.isObject : TxAmount → Bool
  | .drops _ => false
  | .issued _ _ _ => true

def TxAmount.currencyOf : TxAmount → String
  | .drops _ => ""
  | .issued c _ _ => c

def TxAmount.issuerOf : TxAmount → String
  | .drops _ => ""
  | .issued _ i _ => i

def TxAmount.valueOf : TxAmount → String
  | .drops v => v
  | .issued _ _ v => v

/-- A transaction memo record (type, format, data). -/
structure Memo where
  type : String
  format : String
  data : String
deriving Repr, DecidableEq

/-- The parts of a ledger transaction that the hook event extractor inspects. -/
structure HookTx where
  account : String
  destination : String
  amount : TxAmount
  memos : List Memo
deriving Repr, DecidableEq

/-- `tx.Memos[i]` under a length guard (the source only accesses an index
after checking `tx.Memos.length`). -/
def memoAt (tx : HookTx) (i : Nat) : Memo :=
  tx.memos.getD i ⟨"", "", ""⟩

/-- The decoded domain events the extractor can produce.  The `redeem` event
keeps the amount value as its raw string (the source applies `parseInt`,
which no claim depends on); `jsonParseFailure` stands for the exception that
`JSON.parse` raises on a malformed payload. -/
inductive HookEvent where
  | reward (host amount : String)
  | redeem (user host token moments payload : String)
  | redeemError (redeemTxHash reason : String)
  | redeemSuccess (redeemTxHash payload : String)
  | refundRequest (redeemTxHash : String)
  | hostRegistered (host token instanceSize location : String)
  | hostDeregistered (host : String)
  | auditRequest (auditor : String)
  | auditSuccess (auditor : String)
  | jsonParseFailure
deriving Repr, DecidableEq

/-- The guard of the extractor's first rule: an outgoing transaction from the
hook account itself, with an issued-currency EVR amount, whose destination is
one of the currently registered hosts (`(await this.getHosts()).some(...)`;
the host directory read is modelled by the `hostAddresses` parameter). -/
def isRewardTransaction (selfAddress : String) (hostAddresses : List String)
    (tx : HookTx) : Bool :=
  tx.account == selfAddress && tx.amount.isObject && tx.amount.currencyOf == EVR &&
    hostAddresses.any (fun h => h == tx.destination)

/-- `#extractEvernodeHookEvent(tx)`: ordered pattern matching over the
transaction's memos (first matching rule wins), preceded by the memo-less
reward rule.  `parseReason` models `JSON.parse(payload).reason` for the JSON
redeem-response branch: `some r` when the payload parses to an object whose
`reason` field is `r`, `none` when `JSON.parse` would throw. -/
def extractEvernodeHookEvent (selfAddress : String) (hostAddresses : List String)
    (parseReason : String → Option String) (tx : HookTx) : Option HookEvent :=
  if isRewardTransaction selfAddress hostAddresses tx then
    some (HookEvent.reward tx.destination tx.amount.valueOf)
  else if tx.memos.length == 0 then
    none
  else if 1 ≤ tx.memos.length ∧ (memoAt tx 0).format = MemoFormats.BINARY ∧
      (memoAt tx 0).type = MemoTypes.REDEEM ∧ (memoAt tx 0).data ≠ "" then
    some (HookEvent.redeem tx.account tx.amount.issuerOf tx.amount.currencyOf
      tx.amount.valueOf (memoAt tx 0).data)
  else if 2 ≤ tx.memos.length ∧ (memoAt tx 0).format = MemoFormats.BINARY ∧
      (memoAt tx 0).type = MemoTypes.REDEEM_REF ∧ (memoAt tx 0).data ≠ "" ∧
      (memoAt tx 1).type = MemoTypes.REDEEM_RESP ∧ (memoAt tx 1).data ≠ "" then
    if (memoAt tx 1).format = MemoFormats.JSON then
      match parseReason (memoAt tx 1).data with
      | some reason => some (HookEvent.redeemError (memoAt tx 0).data reason)
      | none => some HookEvent.jsonParseFailure
    else
      some (HookEvent.redeemSuccess (memoAt tx 0).data (memoAt tx 1).data)
  else if 1 ≤ tx.memos.length ∧ (memoAt tx 0).format = MemoFormats.BINARY ∧
      (memoAt tx 0).type = MemoTypes.REFUND ∧ (memoAt tx 0).data ≠ "" then
    some (HookEvent.refundRequest (memoAt tx 0).data)
  else if 1 ≤ tx.memos.length ∧ (memoAt tx 0).format = MemoFormats.TEXT ∧
      (memoAt tx 0).type = MemoTypes.HOST_REG ∧ (memoAt tx 0).data ≠ "" then
    let parts := (memoAt tx 0).data.splitOn ";"
    some (HookEvent.hostRegistered tx.account (parts.getD 0 "") (parts.getD 1 "")
      (parts.getD 2 ""))
  else if 1 ≤ tx.memos.length ∧ (memoAt tx 0).type = MemoTypes.HOST_DEREG then
    some (HookEvent.hostDeregistered tx.account)
  else if 1 ≤ tx.memos.length ∧ (memoAt tx 0).format = MemoFormats.BINARY ∧
      (memoAt tx 0).type = MemoTypes.AUDIT_REQ then
    some (HookEvent.auditRequest tx.account)
  else if 1 ≤ tx.memos.length ∧ (memoAt tx 0).format = MemoFormats.BINARY ∧
      (memoAt tx 0).type = MemoTypes.AUDIT_SUCCESS then
    some (HookEvent.auditSuccess tx.account)
  else
    none

/-! ### Hook config reader and the moment (epoch) computation (EvernodeHook) -/

/-- The configuration fields relevant to the moment computation (the source's
config object also carries `hostRegFee`, `redeemWindow` and `minRedeem`,
which `getMoment` does not read). -/
structure HookConfig where
  momentBaseIdx : Nat
  momentSize : Nat
deriving Repr, DecidableEq

/-- The mutable state of an `EvernodeHook` instance: the `#cachedConfig`
field, plus a counter of how many ledger-state fetches have been performed
(used to index the fetch oracle). -/
structure EvernodeHookState where
  cachedConfig : Option HookConfig
  fetchCount : Nat
deriving Repr, DecidableEq

/-- `getConfig()`: reads the hook key-value ledger state (the state fetch and
the per-key binary decoding with defaults are abstracted into the `oracle`,
indexed by the fetch counter), stores the result in `#cachedConfig` and
returns it.  Every call performs a fresh fetch. -/
def getConfig (oracle : Nat → HookConfig) (st : EvernodeHookState) :
    HookConfig × EvernodeHookState :=
  let cfg := oracle st.fetchCount
  (cfg, { cachedConfig := some cfg, fetchCount := st.fetchCount + 1 })

/-- `const lv = ledgerVersion || this.account.rippleAPI.ledgerVersion`:
the effective ledger version (`0` and `null`/absent are both falsy in JS and
fall back to the API's current ledger index). -/
def effectiveLedgerVersion (currentLedger : Nat) (lvArg : Option Nat) : Nat :=
  match lvArg with
  | some v => if v = 0 then currentLedger else v
  | none => currentLedger

/-- `getMoment(ledgerVersion)`: lazily fetches the config when the cache is
empty, then computes `Math.floor((lv - momentBaseIdx) / momentSize)`
(`Int.fdiv` is floor division). -/
def getMoment (oracle : Nat → HookConfig) (currentLedger : Nat) (lvArg : Option Nat)
    (st : EvernodeHookState) : Int × EvernodeHookState :=
  match st.cachedConfig with
  | none =>
    let fetched := getConfig oracle st
    (Int.fdiv ((effectiveLedgerVersion currentLedger lvArg : Int) -
        fetched.1.momentBaseIdx) fetched.1.momentSize, fetched.2)
  | some cfg =>
    (Int.fdiv ((effectiveLedgerVersion currentLedger lvArg : Int) -
        cfg.momentBaseIdx) cfg.momentSize, st)

/-! ### Host registration argument validation (HostClient.register) -/

/-- `/^([A-Z]{2})$/.test(countryCode)`: exactly two uppercase ASCII letters. -/
def countryCodeOk (countryCode : String) : Bool :=
  countryCode.length == 2 &&
    countryCode.toList.all (fun c => decide ('A' ≤ c) && decide (c ≤ 'Z'))

/-- `!x || isNaN(x) || x % 1 != 0 || x < 0`: the rejection test applied to
each numeric registration parameter.  Parameters are modelled as rationals
(`NaN` is not representable; `!x` rejects `0`, `% 1 != 0` rejects
non-integers, `< 0` rejects negatives). -/
def positiveIntegerCheckFails (q : ℚ) : Bool :=
  q == 0 || !(q.den == 1) || decide (q < 0)

/-- The description regex: at most 26 characters, each in the ASCII range and
none equal to a semicolon. -/
def descriptionRegexOk (description : String) : Bool :=
  decide (description.length ≤ 26) &&
    description.toList.all (fun c => decide (c.toNat ≤ 127) && !(c == ';'))

/-- `/.+@.+/.test(emailAddress)`: some `@` with at least one character on each
side, i.e. an `@` occurs at a position other than the first and the last. -/
def emailRegexTest (emailAddress : String) : Bool :=
  ((emailAddress.toList.drop 1).dropLast).contains '@'

/-- The validation chain at the top of `register(...)`: the first failing
check raises its message; when all checks pass, the method goes on to the
ledger interaction.  Messages are those of the source (quotes around the
semicolon written as escapes). -/
def registerChecks (countryCode : String) (cpuMicroSec ramMb diskMb totalInstanceCount : ℚ)
    (cpuModel : String) (cpuCount cpuSpeed : ℚ) (description emailAddress : String) :
    Option String :=
  if !countryCodeOk countryCode then
    some "countryCode should consist of 2 uppercase alphabetical characters"
  else if positiveIntegerCheckFails cpuMicroSec then
    some "cpuMicroSec should be a positive integer"
  else if positiveIntegerCheckFails ramMb then
    some "ramMb should be a positive integer"
  else if positiveIntegerCheckFails diskMb then
    some "diskMb should be a positive integer"
  else if positiveIntegerCheckFails totalInstanceCount then
    some "totalInstanceCount should be a positive intiger"
  else if positiveIntegerCheckFails cpuCount then
    some "CPU count should be a positive integer"
  else if positiveIntegerCheckFails cpuSpeed then
    some "CPU speed should be a positive integer"
  else if cpuModel == "" then
    some "cpu model cannot be empty"
  else if !descriptionRegexOk description then
    some "description should consist of 0-26 ascii characters except \x27;\x27"
  else if !emailRegexTest emailAddress || decide (emailAddress.length > 40) then
    some "Email address should be valid and can not have more than 40 characters."
  else
    none

/-- `register(...)`: on a validation failure the method throws before any
ledger request is issued (the returned request list is empty); when
validation passes it proceeds with the ledger interaction, abstracted as the
`rest` continuation (whose request list starts with the `isRegistered`
query).  The result pairs the list of issued ledger requests with the
outcome. -/
def register (countryCode : String) (cpuMicroSec ramMb diskMb totalInstanceCount : ℚ)
    (cpuModel : String) (cpuCount cpuSpeed : ℚ) (description emailAddress : String)
    (rest : List String × Except String Bool) : List String × Except String Bool :=
  match registerChecks countryCode cpuMicroSec ramMb diskMb totalInstanceCount cpuModel
      cpuCount cpuSpeed description emailAddress with
  | some msg => ([], Except.error msg)
  | none => rest

/-! ### The finality wait loop (XrplApi #waitForFinalTransactionOutcome) -/

/-- What one iteration of the wait loop observes about the transaction when
it queries it by hash: the `txnNotFound` application error, a response that
is not yet validated, a validated response (`resp` models the returned
transaction record), or any other query error (which the source rethrows with
the preliminary result attached). -/
inductive TxPollStatus where
  | notFound
  | foundNotValidated
  | foundValidated (resp : Nat)
  | queryFailed (message : String)
deriving Repr, DecidableEq

/-- One poll of the wait loop: the ledger index fetched after the sleep, and
what the transaction query at that iteration would observe. -/
structure PollObs where
  ledgerIdx : Nat
  status : TxPollStatus
deriving Repr, DecidableEq

/-- Result of the wait: the validated transaction record, the thrown
`TOOK_LONG` object (which spreads the provisional submission result into
itself), a rethrown query error, the thrown message for a missing
`LastLedgerSequence`, or fuel exhaustion (the source loop can recurse
unboundedly). -/
inductive WaitResult where
  | ok (resp : Nat)
  | tookLong (submissionResult : Nat)
  | queryError (message : String)
  | missingLastLedger
  | outOfFuel
deriving Repr, DecidableEq

/-- The recursive body of `#waitForFinalTransactionOutcome`: sleep, fetch the
current ledger index, fail with `TOOK_LONG` when it exceeds the transaction's
`LastLedgerSequence`, otherwise query the transaction by hash and either
return the validated record or recurse. -/
def waitLoop (lastLedger submissionResult : Nat) :
    Nat → (Nat → PollObs) → WaitResult
  | 0, _ => WaitResult.outOfFuel
  | fuel + 1, polls =>
    if lastLedger < (polls 0).ledgerIdx then
      WaitResult.tookLong submissionResult
    else
      match (polls 0).status with
      | TxPollStatus.queryFailed m => WaitResult.queryError m
      | TxPollStatus.foundValidated r => WaitResult.ok r
      | TxPollStatus.notFound =>
        waitLoop lastLedger submissionResult fuel (fun n => polls (n + 1))
      | TxPollStatus.foundNotValidated =>
        waitLoop lastLedger submissionResult fuel (fun n => polls (n + 1))

/-- `#waitForFinalTransactionOutcome(txHash, lastLedger, submissionResult)`:
throws immediately when `lastLedger` is `null`/absent, otherwise runs the
wait loop. -/
def waitForFinalTransactionOutcome (fuel : Nat) (polls : Nat → PollObs)
    (lastLedger : Option Nat) (submissionResult : Nat) : WaitResult :=
  match lastLedger with
  | none => WaitResult.missingLastLedger
  | some l => waitLoop l submissionResult fuel polls

/-- A poll at which the wait loop takes another turn: the fetched ledger
index does not exceed the expiry index and the transaction is not yet found
as validated (and the query did not fail). -/
@[reducible]
def pollContinues (lastLedger : Nat) (o : PollObs) : Prop :=
  o.ledgerIdx ≤ lastLedger ∧
    (o.status = TxPollStatus.notFound ∨ o.status = TxPollStatus.foundNotValidated)

/-- The fields of an outbound transaction that `submitAndWait` /
`submitMultisignedAndWait` read for reliable submission. -/
structure SubmitTx where
  lastLedgerSequence : Option Nat
deriving Repr, DecidableEq

/-- `submitAndWait(tx, tx_blob)` (and identically
`submitMultisignedAndWait(tx)`): the submit command is sent to the network
first, unconditionally; only then does `#prepareResponse` enter the finality
wait, which is where a missing `LastLedgerSequence` is detected.  The first
component records whether the submit request was issued to the network. -/
def submitAndWait (tx : SubmitTx) (fuel : Nat) (polls : Nat → PollObs)
    (submissionResult : Nat) : Bool × WaitResult :=
  let submitRequestIssued := true
  (submitRequestIssued,
    waitForFinalTransactionOutcome fuel polls tx.lastLedgerSequence submissionResult)

/-! ### Cursor-based pagination (XrplApi #requestWithPaging) -/

/-- `MAX_PAGE_LIMIT`. -/
def MAX_PAGE_LIMIT : Nat := 400

/-- One endpoint response: the items of the requested collection and the
optional continuation marker. -/
structure LedgerPage where
  items : List Nat
  marker : Option Nat
deriving Repr, DecidableEq

/-- `!count || count > 0`: the count half of the loop guard.  `count` is
falsy when absent or zero; it never becomes negative because each subtracted
page limit is at most the remaining count. -/
def pagingGuardCount : Option Nat → Bool
  | none => true
  | some c => c == 0 || decide (0 < c)

/-- `requestObj.limit = count ? Math.min(count, MAX_PAGE_LIMIT) :
MAX_PAGE_LIMIT` (note that a zero remaining count is falsy and selects the
full page limit). -/
def pageLimit : Option Nat → Nat
  | none => MAX_PAGE_LIMIT
  | some c => if c == 0 then MAX_PAGE_LIMIT else min c MAX_PAGE_LIMIT

/-- `if (count) count -= requestObj.limit` (again `0` is falsy and is left
unchanged). -/
def pagingNextCount (count : Option Nat) (lim : Nat) : Option Nat :=
  match count with
  | none => none
  | some c => if c == 0 then some c else some (c - lim)

/-- The `while` loop of `#requestWithPaging`: `pages k` is the endpoint's
response to the `k`-th request issued by this loop; `checked` records whether
a first request has been made, and `marker` is the marker of the previous
response.  The fuel bounds the number of iterations (the source loop is
unbounded while markers keep arriving). -/
def requestWithPagingLoop (pages : Nat → LedgerPage) :
    Nat → Nat → Option Nat → Bool → Option Nat → List Nat
  | 0, _, _, _, _ => []
  | fuel + 1, k, count, checked, marker =>
    if pagingGuardCount count && (!checked || marker.isSome) then
      let lim := pageLimit count
      let p := pages k
      p.items ++
        requestWithPagingLoop pages fuel (k + 1) (pagingNextCount count lim) true p.marker
    else []

/-- `#requestWithPaging(requestObj, requestType)`: run the paging loop with
the caller-requested total count (`requestObj.limit`, absent when the caller
gave none). -/
def requestWithPaging (pages : Nat → LedgerPage) (fuel : Nat) (limit : Option Nat) :
    List Nat :=
  requestWithPagingLoop pages fuel 0 limit false none

/-! ### Retry with fee escalation (HostClient #submitWithRetry) -/

/-- The retry options read from `options.retryOptions`; absent JS fields are
modelled as `0` (both are used through falsy-defaulting reads). -/
structure RetryOptions where
  maxRetryAttempts : Nat
  feeUplift : Nat
deriving Repr, DecidableEq

/-- `const maxAttempts = (options?.maxRetryAttempts || 1)`. -/
def maxAttemptsOf (o : RetryOptions) : Nat :=
  if o.maxRetryAttempts = 0 then 1 else o.maxRetryAttempts

/-- The fields of a submission failure that the retry wrapper inspects. -/
structure JsSubmitError where
  code : Option String
  status : Option String
deriving Repr, DecidableEq

/-- `e.code === "tecDUPLICATE" || e.code === "tefPAST_SEQ" || e.code ===
"tefALREADY"`: the definitively-terminal duplicate/past-sequence codes. -/
def isTerminalCode (e : JsSubmitError) : Bool :=
  e.code == some "tecDUPLICATE" || e.code == some "tefPAST_SEQ" ||
    e.code == some "tefALREADY"

/-- Outcome of one invocation of the submission callback. -/
inductive AttemptOutcome where
  | ok (v : Nat)
  | err (e : JsSubmitError)
deriving Repr, DecidableEq

/-- Result of the retry wrapper: the callback's value, a rethrown error,
the implicit `undefined` return should the `while` guard ever fail (it is
unreachable for the normalised `maxAttempts ≥ 1`), or fuel exhaustion. -/
inductive RetryResult where
  | ok (v : Nat)
  | thrown (e : JsSubmitError)
  | loopExhausted
  | outOfFuel
deriving Repr, DecidableEq

/-- The `while (attempt <= maxAttempts)` loop of `#submitWithRetry`.
`beh a` is the outcome of the `a`-th callback invocation (1-based);
`attemptsMade` is the `attempt` variable before its increment and `fee` is
the current `feeUplift`.  Returns the list of `feeUplift` values passed to
the callback, one per invocation, together with the final result. -/
def submitWithRetryLoop (beh : Nat → AttemptOutcome) (upliftStep maxA : Nat) :
    Nat → Nat → Nat → List Nat × RetryResult
  | 0, _, _ => ([], RetryResult.outOfFuel)
  | fuel + 1, attemptsMade, fee =>
    if attemptsMade ≤ maxA then
      match beh (attemptsMade + 1) with
      | AttemptOutcome.ok v => ([fee], RetryResult.ok v)
      | AttemptOutcome.err e =>
        if attemptsMade + 1 = maxA ∨ isTerminalCode e = true then
          ([fee], RetryResult.thrown e)
        else
          (fee :: (submitWithRetryLoop beh upliftStep maxA fuel (attemptsMade + 1)
              (if e.status = some "TOOK_LONG" then fee + upliftStep else fee)).1,
            (submitWithRetryLoop beh upliftStep maxA fuel (attemptsMade + 1)
              (if e.status = some "TOOK_LONG" then fee + upliftStep else fee)).2)
    else ([], RetryResult.loopExhausted)

/-- `#submitWithRetry(callback, options)`: starts at attempt 0 with zero fee
uplift; `maxAttempts + 1` fuel suffices for the loop to run to its own
termination. -/
def submitWithRetry (opts : RetryOptions) (beh : Nat → AttemptOutcome) :
    List Nat × RetryResult :=
  submitWithRetryLoop beh opts.feeUplift (maxAttemptsOf opts) (maxAttemptsOf opts + 1) 0 0

/-! ### Multi-signature combination (XrplApi multiSign) -/

/-- An independently-signed copy of a transaction: the common underlying
transaction content (`base`) plus the signer proofs this copy carries. -/
structure SignedTx where
  base : Nat
  signers : List Nat
deriving Repr, DecidableEq

/-- Result of `multiSign`: the combined transaction, or the thrown
empty-input message. -/
inductive MultiSignResult where
  | combined (tx : SignedTx)
  | emptyInputError (message : String)
deriving Repr, DecidableEq

/-- Modelled from the spec: the combination performed by the external
`xrpl.multisign` collaborator (its source is not part of this repository).
Per the spec it combines "an ordered collection of independently-signed
copies of the same transaction ... into one transaction carrying the union
of all signer proofs" and "must be order-independent in its result": the
combined transaction keeps the common base and carries every signer proof of
every input copy, in a canonical (sorted) order. -/
def multisignCombine (txs : List SignedTx) : SignedTx :=
  { base := (txs.head?.map SignedTx.base).getD 0
    signers := ((txs.map SignedTx.signers).flatten).mergeSort (fun a b => decide (a ≤ b)) }

/-- `multiSign(transactions)`: the empty-collection check is from the source;
a non-empty collection is combined by `xrpl.multisign` (modelled above). -/
def multiSign (txs : List SignedTx) : MultiSignResult :=
  if txs.length > 0 then MultiSignResult.combined (multisignCombine txs)
  else MultiSignResult.emptyInputError "Transaction list is empty for multi-signing."

/-! ### Specification-side predicates (the claims' wording, used to state the
theorems against the code-derived checks above) -/

/-- "exactly two uppercase ASCII letters". -/
@[reducible]
def isTwoUppercaseAscii (countryCode : String) : Prop :=
  countryCode.length = 2 ∧ ∀ c ∈ countryCode.toList, 'A' ≤ c ∧ c ≤ 'Z'

/-- "a positive integer" (over the rationals that model JS numbers). -/
@[reducible]
def isPositiveInteger (q : ℚ) : Prop :=
  q.den = 1 ∧ 0 < q

/-- "contains an `@` with text on both sides". -/
def hasAtWithTextBothSides (emailAddress : String) : Prop :=
  ∃ l₁ l₂, emailAddress.toList = l₁ ++ '@' :: l₂ ∧ l₁ ≠ [] ∧ l₂ ≠ []

/-! ### Concrete inputs used by the closed witness and counterexample theorems -/

/-- Polls whose ledger index passes the expiry index 10 at the third poll
without the transaction ever being found. -/
def pollsExpire : Nat → PollObs := fun k =>
  if k < 2 then ⟨5 + k, TxPollStatus.notFound⟩ else ⟨11, TxPollStatus.notFound⟩

/-- Polls that find the transaction validated at the third poll, at ledger
index 7 (within the expiry index 10). -/
def pollsValidate : Nat → PollObs := fun k =>
  if k < 2 then ⟨5 + k, TxPollStatus.notFound⟩ else ⟨7, TxPollStatus.foundValidated 99⟩

/-- An endpoint whose first page carries 400 items and a marker, and whose
second page carries 10 items and no marker. -/
def pagesOverrun : Nat → LedgerPage := fun k =>
  if k = 0 then ⟨List.range 400, some 1⟩ else ⟨List.range 10, none⟩

/-- A callback behaviour whose first attempt fails with a `TOOK_LONG` status
and whose second attempt succeeds. -/
def behUplift : Nat → AttemptOutcome := fun a =>
  if a = 1 then AttemptOutcome.err ⟨none, some "TOOK_LONG"⟩ else AttemptOutcome.ok 9

/-- Two attempts, fee uplift increment 5. -/
def optsTwoAttempts : RetryOptions := ⟨2, 5⟩

/-- A JSON parse oracle: the payload string "PAYLOAD_JSON" parses to an object
with reason field "r1"; nothing else parses. -/
def parseReasonSample : String → Option String := fun s =>
  if s = "PAYLOAD_JSON" then some "r1" else none

/-- A transaction that satisfies both the reward rule (outgoing EVR payment
from the hook account to the registered host "h1") and the redeem-response
memo pattern of the claim. -/
def rewardOverlapTx : HookTx :=
  ⟨"hookAddr", "h1", TxAmount.issued "EVR" "issuer1" "5",
    [⟨MemoTypes.REDEEM_REF, MemoFormats.BINARY, "REF"⟩,
     ⟨MemoTypes.REDEEM_RESP, MemoFormats.JSON, "PAYLOAD_JSON"⟩]⟩

/-- A redeem-response transaction with a JSON second memo, not matching the
reward rule. -/
def redeemRespJsonTx : HookTx :=
  ⟨"host1", "hookAddr", TxAmount.drops "1",
    [⟨MemoTypes.REDEEM_REF, MemoFormats.BINARY, "REF"⟩,
     ⟨MemoTypes.REDEEM_RESP, MemoFormats.JSON, "PAYLOAD_JSON"⟩]⟩

/-- The same transaction with the second memo in a non-JSON (binary) format. -/
def redeemRespBinTx : HookTx :=
  ⟨"host1", "hookAddr", TxAmount.drops "1",
    [⟨MemoTypes.REDEEM_REF, MemoFormats.BINARY, "REF"⟩,
     ⟨MemoTypes.REDEEM_RESP, MemoFormats.BINARY, "PAY"⟩]⟩

/-- A validated incoming transaction with a non-success engine result. -/
def failedIncomingTx : IncomingTx :=
  ⟨true, "Payment", "rA", "tecHOOK_REJECTED", "Hook rejected"⟩

/-- A config fetch oracle that always reads epoch base 10 and epoch size 4
from the ledger state. -/
def oracleSample : Nat → HookConfig := fun _ => ⟨10, 4⟩

/-! ## Theorems -/

/-! ### C7: unsubscription removes exactly the matching (address, handler) pairs -/

theorem unsubscribeIter_eq (address : String) (handler : Nat) :
    ∀ (i : Nat) (subs : List AddressSub), i ≤ subs.length →
      unsubscribeIter address handler subs i =
        (subs.take i).filter (fun s => !(s.address == address && s.handler == handler)) ++
          subs.drop i := by
  intro i
  induction i with
  | zero => intro subs _; simp [unsubscribeIter]
  | succ i ih =>
    intro subs hle
    have hi : i < subs.length := by omega
    have hget : subs[i]? = some subs[i] := List.getElem?_eq_getElem hi
    have htake : subs.take (i + 1) = subs.take i ++ [subs[i]] := by
      rw [List.take_succ, hget]
      rfl
    have hdropc : subs.drop i = subs[i] :: subs.drop (i + 1) :=
      List.drop_eq_getElem_cons hi
    by_cases hmatch : subs[i].address = address ∧ subs[i].handler = handler
    · have hstep : unsubscribeIter address handler subs (i + 1) =
          unsubscribeIter address handler (spliceOne subs i) i := by
        simp only [unsubscribeIter, hget]
        rw [if_pos hmatch]
      have hlen : (subs.take i).length = i := by
        simp [List.length_take]; omega
      have hle2 : i ≤ (spliceOne subs i).length := by
        simp [spliceOne, List.length_take, List.length_drop]; omega
      rw [hstep, ih (spliceOne subs i) hle2]
      have ht : (spliceOne subs i).take i = subs.take i := by
        unfold spliceOne; rw [List.take_left' hlen]
      have hd : (spliceOne subs i).drop i = subs.drop (i + 1) := by
        unfold spliceOne; rw [List.drop_left' hlen]
      have hsingle :
          List.filter (fun s => !(s.address == address && s.handler == handler)) [subs[i]]
            = [] := by
        simp [List.filter, hmatch.1, hmatch.2]
      rw [ht, hd, htake, List.filter_append, hsingle]
      simp
    · have hstep : unsubscribeIter address handler subs (i + 1) =
          unsubscribeIter address handler subs i := by
        simp only [unsubscribeIter, hget]
        rw [if_neg hmatch]
      have hp : (!(subs[i].address == address && subs[i].handler == handler)) = true := by
        rcases Decidable.em (subs[i].address = address) with ha | ha
        · have hh : ¬subs[i].handler = handler := fun hh => hmatch ⟨ha, hh⟩
          simp [ha, hh]
        · simp [ha]
      have hsingle :
          List.filter (fun s => !(s.address == address && s.handler == handler)) [subs[i]]
            = [subs[i]] := by
        simp [List.filter, hp]
      rw [hstep, ih subs (by omega), htake, List.filter_append, hsingle, hdropc]
      simp

/-- C7: for every subscription list, `unsubscribeFromAddress` removes exactly
the entries identical to the given (address, handler) pair and leaves every
other entry (including other handlers on the same address) unchanged, in
order; consequently subscribing the same pair twice and then unsubscribing it
once leaves no entry for that pair. -/
theorem unsubscribe_removes_exactly_the_matching_pairs
    (subs : List AddressSub) (address : String) (handler : Nat) :
    unsubscribeFromAddress subs address handler =
      subs.filter (fun s => !(s.address == address && s.handler == handler)) ∧
    ∀ s ∈ unsubscribeFromAddress
        (subscribeToAddress (subscribeToAddress subs address handler) address handler)
        address handler, ¬(s.address = address ∧ s.handler = handler) := by
  have hmain : ∀ l : List AddressSub, unsubscribeFromAddress l address handler =
      l.filter (fun s => !(s.address == address && s.handler == handler)) := by
    intro l
    unfold unsubscribeFromAddress
    rw [unsubscribeIter_eq address handler l.length l le_rfl]
    simp
  refine ⟨hmain subs, ?_⟩
  intro s hs
  rw [hmain _] at hs
  have hp := (List.mem_filter.mp hs).2
  rintro ⟨h1, h2⟩
  rw [h1, h2] at hp
  simp at hp

/-- Witness for C7: a concrete subscription list with a different handler on
the same address, which survives the unsubscription. -/
theorem unsubscribe_removes_exactly_the_matching_pairs_witness :
    unsubscribeFromAddress [⟨"a", 2⟩] "a" 1 =
      List.filter (fun s => !(s.address == "a" && s.handler == 1)) [⟨"a", 2⟩] ∧
    ¬((⟨"a", 2⟩ : AddressSub).address = "a" ∧ (⟨"a", 2⟩ : AddressSub).handler = 1) :=
  ⟨(unsubscribe_removes_exactly_the_matching_pairs [⟨"a", 2⟩] "a" 1).1,
    (unsubscribe_removes_exactly_the_matching_pairs [⟨"a", 2⟩] "a" 1).2 ⟨"a", 2⟩ (by decide)⟩

/-! ### C5: engine-result gating of the subscription dispatch -/

/-- C5: a decoded success event is delivered only when the engine result is
the canonical `tesSUCCESS`; for any other engine result every matching
subscriber receives an error callback carrying the engine's human-readable
failure message and no decoded payload. -/
theorem dispatchTransaction_gates_on_engine_result
    (subs : List AddressSub) (data : IncomingTx) :
    (∀ h ev tx, HandlerCall.event h ev tx ∈ dispatchTransaction subs data →
      data.engineResult = "tesSUCCESS") ∧
    (data.validated = true → data.engineResult ≠ "tesSUCCESS" →
      dispatchTransaction subs data =
        (subs.filter (fun s => s.address == data.destination)).map
          (fun s => HandlerCall.failure s.handler (toLowerStr data.transactionType)
            data.engineResultMessage)) := by
  constructor
  · intro h ev tx hmem
    by_cases hr : data.engineResult = "tesSUCCESS"
    · exact hr
    · exfalso
      have hrb : (data.engineResult == "tesSUCCESS") = false := by
        simpa using hr
      by_cases hv : data.validated = true
      · simp [dispatchTransaction, hv, hrb] at hmem
      · have hv2 : data.validated = false := by
          cases hval : data.validated
          · rfl
          · exact absurd hval hv
        simp [dispatchTransaction, hv2] at hmem
  · intro hv hres
    have hrb : (data.engineResult == "tesSUCCESS") = false := by
      simpa using hres
    by_cases hm : 0 < (subs.filter (fun s => s.address == data.destination)).length
    · simp [dispatchTransaction, hv, hrb, hm]
    · have hnil : subs.filter (fun s => s.address == data.destination) = [] := by
        have := Nat.eq_zero_of_not_pos hm
        exact List.length_eq_zero.mp this
      simp [dispatchTransaction, hv, hrb, hnil]

/-- Witness for C5: a concrete validated transaction with a failed engine
result, whose matching subscriber receives exactly the error callback. -/
theorem dispatchTransaction_gates_on_engine_result_witness :
    dispatchTransaction ([⟨"rA", 1⟩] : List AddressSub) failedIncomingTx =
      (([⟨"rA", 1⟩] : List AddressSub).filter
          (fun s => s.address == failedIncomingTx.destination)).map
        (fun s => HandlerCall.failure s.handler (toLowerStr failedIncomingTx.transactionType)
          failedIncomingTx.engineResultMessage) :=
  (dispatchTransaction_gates_on_engine_result ([⟨"rA", 1⟩] : List AddressSub)
    failedIncomingTx).2 rfl (by decide)

/-! ### C2: reliable submission with a missing expiry ledger index -/

/-- Counterexample for C2: for a transaction lacking `LastLedgerSequence`,
the submit request IS issued to the network (first component `true`) before
the missing expiry index is detected in the finality wait, contradicting the
claim that the submission is rejected before the transaction reaches the
network. -/
theorem submitAndWait_missing_expiry_counterexample :
    submitAndWait ⟨none⟩ 5 pollsExpire 42 = (true, WaitResult.missingLastLedger) := rfl

/-- C2 (amended): for every outbound transaction lacking a
`LastLedgerSequence`, reliable submission fails with the caller error
(`missingLastLedger`, the thrown configuration message) raised by the
finality wait after the submit request has been issued; the absence is never
surfaced as a network error. -/
theorem submitAndWait_missing_expiry_is_caller_error
    (tx : SubmitTx) (fuel : Nat) (polls : Nat → PollObs) (s : Nat)
    (h : tx.lastLedgerSequence = none) :
    submitAndWait tx fuel polls s = (true, WaitResult.missingLastLedger) := by
  simp [submitAndWait, waitForFinalTransactionOutcome, h]

/-- Witness for the amended C2. -/
theorem submitAndWait_missing_expiry_is_caller_error_witness :
    submitAndWait ⟨none⟩ 7 pollsValidate 3 = (true, WaitResult.missingLastLedger) :=
  submitAndWait_missing_expiry_is_caller_error ⟨none⟩ 7 pollsValidate 3 rfl

/-! ### C3: pagination past a satisfied caller-requested count (code bug) -/

/-- C3 (code bug demonstration): with a caller-requested total of 400 items
and a first page of 400 items carrying a marker, the remaining count reaches
`0`, which is falsy; instead of terminating with the 400 requested items the
loop issues another request with the full 400-item page limit and returns the
second page's 10 items as well, 410 in total. -/
theorem requestWithPaging_overruns_satisfied_count :
    requestWithPaging pagesOverrun 3 (some 400) = List.range 400 ++ List.range 10 ∧
    (requestWithPaging pagesOverrun 3 (some 400)).length = 410 :=
  ⟨rfl, rfl⟩

/-! ### C9: moment computation and config caching -/

theorem fdiv_natCast_eq_floor (a : Int) (S : Nat) :
    Int.fdiv a (S : Int) = ⌊(a : ℚ) / (S : ℚ)⌋ := by
  rw [Int.fdiv_eq_ediv a (by positivity)]
  exact (Rat.floor_intCast_div_natCast a S).symm

/-- C9: for every ledger index and configuration, the moment query returns
`⌊(lv - momentBaseIdx) / momentSize⌋`; the configuration is fetched from
ledger state on the first call (empty cache), the cached value is reused on a
later call (state unchanged, no fetch), and `getConfig` performs the explicit
re-fetch, overwriting the cache. -/
theorem getMoment_floor_and_caching
    (oracle : Nat → HookConfig) (currentLedger : Nat) (lvArg : Option Nat)
    (st : EvernodeHookState) :
    (∀ cfg, st.cachedConfig = some cfg →
      (getMoment oracle currentLedger lvArg st).1 =
        ⌊((effectiveLedgerVersion currentLedger lvArg : ℚ) - cfg.momentBaseIdx) /
          cfg.momentSize⌋ ∧
      (getMoment oracle currentLedger lvArg st).2 = st) ∧
    (st.cachedConfig = none →
      (getMoment oracle currentLedger lvArg st).1 =
        ⌊((effectiveLedgerVersion currentLedger lvArg : ℚ) -
            (oracle st.fetchCount).momentBaseIdx) / (oracle st.fetchCount).momentSize⌋ ∧
      (getMoment oracle currentLedger lvArg st).2 =
        ⟨some (oracle st.fetchCount), st.fetchCount + 1⟩) ∧
    ((getConfig oracle st).2.cachedConfig = some (oracle st.fetchCount) ∧
      (getConfig oracle st).2.fetchCount = st.fetchCount + 1) := by
  refine ⟨?_, ?_, by simp [getConfig], by simp [getConfig]⟩
  · intro cfg hcfg
    constructor
    · simp only [getMoment, hcfg]
      rw [fdiv_natCast_eq_floor]
      congr 1
      push_cast
      ring
    · simp [getMoment, hcfg]
  · intro hnone
    constructor
    · simp only [getMoment, hnone, getConfig]
      rw [fdiv_natCast_eq_floor]
      congr 1
      push_cast
      ring
    · simp [getMoment, hnone, getConfig]

/-- Witness for C9: first call on an empty cache with the sample oracle. -/
theorem getMoment_floor_and_caching_witness :
    (getMoment oracleSample 27 none ⟨none, 0⟩).1 =
      ⌊((effectiveLedgerVersion 27 none : ℚ) - (oracleSample 0).momentBaseIdx) /
        (oracleSample 0).momentSize⌋ ∧
    (getMoment oracleSample 27 none ⟨none, 0⟩).2 = ⟨some (oracleSample 0), 0 + 1⟩ :=
  (getMoment_floor_and_caching oracleSample 27 none ⟨none, 0⟩).2.1 rfl

/-! ### C10: register input validation -/

set_option maxHeartbeats 2000000 in
theorem registerChecks_message_nonempty
    (countryCode : String) (cpuMicroSec ramMb diskMb totalInstanceCount : ℚ)
    (cpuModel : String) (cpuCount cpuSpeed : ℚ) (description emailAddress : String)
    (msg : String)
    (h : registerChecks countryCode cpuMicroSec ramMb diskMb totalInstanceCount cpuModel
      cpuCount cpuSpeed description emailAddress = some msg) : msg ≠ "" := by
  unfold registerChecks at h
  split_ifs at h
  all_goals
    first
      | exact Option.noConfusion h
      | (injection h with h2; subst h2; decide)

theorem isPositiveInteger_of_check_passes (q : ℚ)
    (h : positiveIntegerCheckFails q = false) : isPositiveInteger q := by
  simp only [positiveIntegerCheckFails, Bool.or_eq_false_iff, beq_eq_false_iff_ne, ne_eq,
    Bool.not_eq_false, beq_iff_eq, decide_eq_false_iff_not, not_lt] at h
  obtain ⟨⟨h0, hden⟩, hneg⟩ := h
  have hden2 : q.den = 1 := by simpa using hden
  exact ⟨hden2, lt_of_le_of_ne hneg (Ne.symm h0)⟩

theorem description_bounds_of_regex_ok (d : String) (h : descriptionRegexOk d = true) :
    d.length ≤ 26 ∧ ';' ∉ d.toList := by
  simp only [descriptionRegexOk, Bool.and_eq_true, decide_eq_true_eq, List.all_eq_true] at h
  refine ⟨h.1, fun hmem => ?_⟩
  have h2 := h.2 ';' hmem
  simp at h2

theorem hasAt_of_emailRegexTest (e : String) (h : emailRegexTest e = true) :
    hasAtWithTextBothSides e := by
  unfold emailRegexTest at h
  have hmem : '@' ∈ (e.toList.drop 1).dropLast := by
    simpa using h
  cases hl : e.toList with
  | nil =>
    rw [hl] at hmem
    simp at hmem
  | cons c0 l1 =>
    have hd1 : e.toList.drop 1 = l1 := by rw [hl]; rfl
    rw [hd1] at hmem
    rcases List.eq_nil_or_concat l1 with h0 | ⟨l2, a, rfl⟩
    · rw [h0] at hmem
      simp at hmem
    · rw [List.concat_eq_append] at hmem hl
      rw [List.dropLast_concat] at hmem
      obtain ⟨s, t, hst⟩ := List.append_of_mem hmem
      refine ⟨c0 :: s, t ++ [a], ?_, by simp, by simp⟩
      rw [hl, hst]
      simp

set_option maxHeartbeats 4000000 in
/-- C10: for every call to `register`, an invalid country code, a
non-positive-integer numeric parameter, an empty CPU model, an over-long or
semicolon-bearing description, or an invalid or over-long email address makes
`register` throw a descriptive (non-empty) error before issuing any ledger
request. -/
theorem register_rejects_invalid_input_before_any_ledger_request
    (countryCode : String) (cpuMicroSec ramMb diskMb totalInstanceCount : ℚ)
    (cpuModel : String) (cpuCount cpuSpeed : ℚ) (description emailAddress : String)
    (rest : List String × Except String Bool)
    (hbad : ¬isTwoUppercaseAscii countryCode ∨ ¬isPositiveInteger cpuMicroSec ∨
      ¬isPositiveInteger ramMb ∨ ¬isPositiveInteger diskMb ∨
      ¬isPositiveInteger totalInstanceCount ∨ ¬isPositiveInteger cpuCount ∨
      ¬isPositiveInteger cpuSpeed ∨ cpuModel = "" ∨
      26 < description.length ∨ ';' ∈ description.toList ∨
      ¬hasAtWithTextBothSides emailAddress ∨ 40 < emailAddress.length) :
    ∃ msg, msg ≠ "" ∧
      register countryCode cpuMicroSec ramMb diskMb totalInstanceCount cpuModel cpuCount
        cpuSpeed description emailAddress rest = ([], Except.error msg) := by
  rcases hchk : registerChecks countryCode cpuMicroSec ramMb diskMb totalInstanceCount
      cpuModel cpuCount cpuSpeed description emailAddress with _ | msg
  · exfalso
    unfold registerChecks at hchk
    split_ifs at hchk with h1 h2 h3 h4 h5 h6 h7 h8 h9 h10
    have hc : countryCodeOk countryCode = true := by
      revert h1; cases countryCodeOk countryCode <;> simp
    have hp1 : positiveIntegerCheckFails cpuMicroSec = false := by
      revert h2; cases positiveIntegerCheckFails cpuMicroSec <;> simp
    have hp2 : positiveIntegerCheckFails ramMb = false := by
      revert h3; cases positiveIntegerCheckFails ramMb <;> simp
    have hp3 : positiveIntegerCheckFails diskMb = false := by
      revert h4; cases positiveIntegerCheckFails diskMb <;> simp
    have hp4 : positiveIntegerCheckFails totalInstanceCount = false := by
      revert h5; cases positiveIntegerCheckFails totalInstanceCount <;> simp
    have hp5 : positiveIntegerCheckFails cpuCount = false := by
      revert h6; cases positiveIntegerCheckFails cpuCount <;> simp
    have hp6 : positiveIntegerCheckFails cpuSpeed = false := by
      revert h7; cases positiveIntegerCheckFails cpuSpeed <;> simp
    have hmodel : cpuModel ≠ "" := by
      intro h0
      exact h8 (by simp [h0])
    have hdesc : descriptionRegexOk description = true := by
      revert h9; cases descriptionRegexOk description <;> simp
    have hemail : emailRegexTest emailAddress = true ∧ emailAddress.length ≤ 40 := by
      revert h10
      cases hE : emailRegexTest emailAddress <;> simp [hE]
    rcases hbad with hb | hb | hb | hb | hb | hb | hb | hb | hb | hb | hb | hb
    · refine hb ?_
      simp only [countryCodeOk, Bool.and_eq_true, beq_iff_eq, List.all_eq_true,
        Bool.and_eq_true, decide_eq_true_eq] at hc
      exact ⟨hc.1, fun c hcm => (hc.2 c hcm)⟩
    · exact hb (isPositiveInteger_of_check_passes _ hp1)
    · exact hb (isPositiveInteger_of_check_passes _ hp2)
    · exact hb (isPositiveInteger_of_check_passes _ hp3)
    · exact hb (isPositiveInteger_of_check_passes _ hp4)
    · exact hb (isPositiveInteger_of_check_passes _ hp5)
    · exact hb (isPositiveInteger_of_check_passes _ hp6)
    · exact hmodel hb
    · exact absurd (description_bounds_of_regex_ok description hdesc).1 (by omega)
    · exact (description_bounds_of_regex_ok description hdesc).2 hb
    · exact hb (hasAt_of_emailRegexTest emailAddress hemail.1)
    · exact absurd hemail.2 (by omega)
  · exact ⟨msg,
      registerChecks_message_nonempty countryCode cpuMicroSec ramMb diskMb
        totalInstanceCount cpuModel cpuCount cpuSpeed description emailAddress msg hchk,
      by unfold register; rw [hchk]⟩

/-- Witness for C10: a lowercase country code is rejected before any ledger
request. -/
theorem register_rejects_invalid_input_witness :
    ∃ msg, msg ≠ "" ∧
      register "us" 1 1 1 1 "x" 1 1 "" "a@b" ([], Except.ok true) =
        ([], Except.error msg) :=
  register_rejects_invalid_input_before_any_ledger_request "us" 1 1 1 1 "x" 1 1 "" "a@b"
    ([], Except.ok true) (Or.inl (by decide))

/-! ### C6: redeem-response event decoding -/

/-- Counterexample for C6: a transaction satisfying the claim's memo pattern
(RedeemRef/binary + RedeemResp/json) that is also an outgoing EVR payment
from the hook account to a registered host is decoded by the extractor's
first rule into a `Reward` event — not into the `RedeemError` event the claim
requires for every such transaction. -/
theorem extract_reward_precedence_counterexample :
    extractEvernodeHookEvent "hookAddr" ["h1"] parseReasonSample rewardOverlapTx =
      some (HookEvent.reward "h1" "5") ∧
    extractEvernodeHookEvent "hookAddr" ["h1"] parseReasonSample rewardOverlapTx ≠
      some (HookEvent.redeemError "REF" "r1") := by
  exact ⟨by decide, by decide⟩

/-- C6 (amended): for every transaction whose first memo is
RedeemRef/binary with non-empty data and whose second memo is RedeemResp with
non-empty data, *provided the transaction is not matched by the
higher-priority reward rule*, the extractor produces a RedeemError event
carrying the JSON payload's `reason` field when the second memo's format is
json, and a RedeemSuccess event carrying the raw payload otherwise. -/
theorem extract_redeem_response_events
    (selfAddress : String) (hostAddresses : List String)
    (parseReason : String → Option String) (tx : HookTx)
    (hnr : isRewardTransaction selfAddress hostAddresses tx = false)
    (hlen : 2 ≤ tx.memos.length)
    (h0f : (memoAt tx 0).format = MemoFormats.BINARY)
    (h0t : (memoAt tx 0).type = MemoTypes.REDEEM_REF)
    (h0d : (memoAt tx 0).data ≠ "")
    (h1t : (memoAt tx 1).type = MemoTypes.REDEEM_RESP)
    (h1d : (memoAt tx 1).data ≠ "") :
    ((memoAt tx 1).format = MemoFormats.JSON →
      ∀ r, parseReason (memoAt tx 1).data = some r →
        extractEvernodeHookEvent selfAddress hostAddresses parseReason tx =
          some (HookEvent.redeemError (memoAt tx 0).data r)) ∧
    ((memoAt tx 1).format ≠ MemoFormats.JSON →
      extractEvernodeHookEvent selfAddress hostAddresses parseReason tx =
        some (HookEvent.redeemSuccess (memoAt tx 0).data (memoAt tx 1).data)) := by
  have hlen0 : (tx.memos.length == 0) = false := by
    have hne : tx.memos.length ≠ 0 := by omega
    simpa using hne
  have hnotredeem : ¬(1 ≤ tx.memos.length ∧ (memoAt tx 0).format = MemoFormats.BINARY ∧
      (memoAt tx 0).type = MemoTypes.REDEEM ∧ (memoAt tx 0).data ≠ "") := by
    rintro ⟨-, -, ht, -⟩
    rw [h0t] at ht
    exact absurd ht (by decide)
  have hcond : 2 ≤ tx.memos.length ∧ (memoAt tx 0).format = MemoFormats.BINARY ∧
      (memoAt tx 0).type = MemoTypes.REDEEM_REF ∧ (memoAt tx 0).data ≠ "" ∧
      (memoAt tx 1).type = MemoTypes.REDEEM_RESP ∧ (memoAt tx 1).data ≠ "" :=
    ⟨hlen, h0f, h0t, h0d, h1t, h1d⟩
  constructor
  · intro hjson r hr
    simp only [extractEvernodeHookEvent, hnr, Bool.false_eq_true, if_false, hlen0]
    rw [if_neg hnotredeem, if_pos hcond, if_pos hjson, hr]
  · intro hne
    simp only [extractEvernodeHookEvent, hnr, Bool.false_eq_true, if_false, hlen0]
    rw [if_neg hnotredeem, if_pos hcond, if_neg hne]

/-- Witness for the amended C6: both decoding branches at concrete
transactions. -/
theorem extract_redeem_response_events_witness :
    extractEvernodeHookEvent "hookAddr" ["h1"] parseReasonSample redeemRespJsonTx =
      some (HookEvent.redeemError (memoAt redeemRespJsonTx 0).data "r1") ∧
    extractEvernodeHookEvent "hookAddr" ["h1"] parseReasonSample redeemRespBinTx =
      some (HookEvent.redeemSuccess (memoAt redeemRespBinTx 0).data
        (memoAt redeemRespBinTx 1).data) :=
  ⟨(extract_redeem_response_events "hookAddr" ["h1"] parseReasonSample redeemRespJsonTx
      (by decide) (by decide) (by decide) (by decide) (by decide) (by decide)
      (by decide)).1 (by decide) "r1" (by decide),
    (extract_redeem_response_events "hookAddr" ["h1"] parseReasonSample redeemRespBinTx
      (by decide) (by decide) (by decide) (by decide) (by decide) (by decide)
      (by decide)).2 (by decide)⟩

/-! ### C8: multi-signature combination -/

/-- C8: `multiSign` fails with the empty-input error exactly when the
collection is empty; a combined transaction carries the union (as a
permutation) of all signer proofs of all input copies; and for
independently-signed copies of the same transaction the result is
independent of the order of the inputs. -/
theorem multiSign_empty_union_order_independent :
    (∀ txs : List SignedTx,
      multiSign txs =
          MultiSignResult.emptyInputError "Transaction list is empty for multi-signing."
        ↔ txs = []) ∧
    (∀ txs c, multiSign txs = MultiSignResult.combined c →
      c.signers.Perm (txs.map SignedTx.signers).flatten) ∧
    (∀ (b : Nat) (txs txs2 : List SignedTx), txs.Perm txs2 →
      (∀ t ∈ txs, t.base = b) → multiSign txs = multiSign txs2) := by
  refine ⟨?_, ?_, ?_⟩
  · intro txs
    constructor
    · intro h
      by_cases hlen : txs.length > 0
      · rw [multiSign, if_pos hlen] at h
        exact MultiSignResult.noConfusion h
      · exact List.length_eq_zero.mp (by omega)
    · rintro rfl
      rfl
  · intro txs c h
    by_cases hlen : txs.length > 0
    · rw [multiSign, if_pos hlen] at h
      injection h with h2
      rw [← h2]
      exact List.mergeSort_perm _ _
    · rw [multiSign, if_neg hlen] at h
      exact MultiSignResult.noConfusion h
  · intro b txs txs2 hperm hbase
    cases txs with
    | nil =>
      have h2 : txs2 = [] := (List.Perm.eq_nil hperm.symm)
      rw [h2]
    | cons hd tl =>
      have hne2 : txs2 ≠ [] := by
        intro h0
        rw [h0] at hperm
        exact List.cons_ne_nil hd tl (List.Perm.eq_nil hperm)
      cases txs2 with
      | nil => exact absurd rfl hne2
      | cons hd2 tl2 =>
        have hjperm : ((hd :: tl).map SignedTx.signers).flatten.Perm
            ((hd2 :: tl2).map SignedTx.signers).flatten :=
          (hperm.map SignedTx.signers).flatten
        have hsorteq :
            ((hd :: tl).map SignedTx.signers).flatten.mergeSort (fun a b => decide (a ≤ b)) =
              ((hd2 :: tl2).map SignedTx.signers).flatten.mergeSort
                (fun a b => decide (a ≤ b)) :=
          List.eq_of_perm_of_sorted
            ((List.mergeSort_perm _ _).trans
              (hjperm.trans (List.mergeSort_perm _ _).symm))
            (List.sorted_mergeSort' _) (List.sorted_mergeSort' _)
        have hb1 : hd.base = b := hbase hd (by simp)
        have hb2 : hd2.base = b := by
          have hmem : hd2 ∈ hd :: tl := hperm.mem_iff.mpr (by simp)
          exact hbase hd2 hmem
        rw [multiSign, multiSign, if_pos (by simp), if_pos (by simp)]
        unfold multisignCombine
        rw [hsorteq]
        simp [hb1, hb2]

/-- Witness for C8: order independence at two concrete signed copies. -/
theorem multiSign_empty_union_order_independent_witness :
    multiSign [⟨7, [3, 1]⟩, ⟨7, [2]⟩] = multiSign [⟨7, [2]⟩, ⟨7, [3, 1]⟩] :=
  multiSign_empty_union_order_independent.2.2 7 [⟨7, [3, 1]⟩, ⟨7, [2]⟩]
    [⟨7, [2]⟩, ⟨7, [3, 1]⟩] (by decide) (by decide)

/-! ### C1: the finality wait loop -/

theorem waitLoop_tookLong_iff (E s : Nat) :
    ∀ (fuel : Nat) (polls : Nat → PollObs),
      (waitLoop E s fuel polls = WaitResult.tookLong s ↔
        ∃ k, k < fuel ∧ E < (polls k).ledgerIdx ∧
          ∀ j, j < k → pollContinues E (polls j)) := by
  intro fuel
  induction fuel with
  | zero =>
    intro polls
    constructor
    · intro h
      exact absurd h (by simp [waitLoop])
    · rintro ⟨k, hk, -, -⟩
      omega
  | succ n ih =>
    intro polls
    constructor
    · intro h
      by_cases hE : E < (polls 0).ledgerIdx
      · exact ⟨0, Nat.succ_pos n, hE, fun j hj => absurd hj (Nat.not_lt_zero j)⟩
      · rw [waitLoop, if_neg hE] at h
        rcases hst : (polls 0).status with _ | _ | r | m <;> rw [hst] at h
        · obtain ⟨k, hk, hEk, hcont⟩ := (ih (fun n => polls (n + 1))).mp h
          refine ⟨k + 1, by omega, hEk, fun j hj => ?_⟩
          cases j with
          | zero => exact ⟨Nat.le_of_not_lt hE, Or.inl hst⟩
          | succ j => exact hcont j (by omega)
        · obtain ⟨k, hk, hEk, hcont⟩ := (ih (fun n => polls (n + 1))).mp h
          refine ⟨k + 1, by omega, hEk, fun j hj => ?_⟩
          cases j with
          | zero => exact ⟨Nat.le_of_not_lt hE, Or.inr hst⟩
          | succ j => exact hcont j (by omega)
        · exact absurd h (by simp)
        · exact absurd h (by simp)
    · rintro ⟨k, hk, hEk, hcont⟩
      by_cases hE : E < (polls 0).ledgerIdx
      · rw [waitLoop, if_pos hE]
      · cases k with
        | zero => exact absurd hEk hE
        | succ k =>
          have h0 := hcont 0 (Nat.succ_pos k)
          rw [waitLoop, if_neg hE]
          have hrec : waitLoop E s n (fun n => polls (n + 1)) = WaitResult.tookLong s :=
            (ih (fun n => polls (n + 1))).mpr
              ⟨k, by omega, hEk, fun j hj => hcont (j + 1) (by omega)⟩
          rcases h0.2 with hst | hst <;> rw [hst] <;> exact hrec

theorem waitLoop_ok_iff (E s : Nat) :
    ∀ (fuel : Nat) (polls : Nat → PollObs) (r : Nat),
      (waitLoop E s fuel polls = WaitResult.ok r ↔
        ∃ k, k < fuel ∧ (polls k).ledgerIdx ≤ E ∧
          (polls k).status = TxPollStatus.foundValidated r ∧
          ∀ j, j < k → pollContinues E (polls j)) := by
  intro fuel
  induction fuel with
  | zero =>
    intro polls r
    constructor
    · intro h
      exact absurd h (by simp [waitLoop])
    · rintro ⟨k, hk, -, -, -⟩
      omega
  | succ n ih =>
    intro polls r
    constructor
    · intro h
      by_cases hE : E < (polls 0).ledgerIdx
      · rw [waitLoop, if_pos hE] at h
        exact absurd h (by simp)
      · rw [waitLoop, if_neg hE] at h
        rcases hst : (polls 0).status with _ | _ | r0 | m <;> rw [hst] at h
        · obtain ⟨k, hk, hEk, hv, hcont⟩ := (ih (fun n => polls (n + 1)) r).mp h
          refine ⟨k + 1, by omega, hEk, hv, fun j hj => ?_⟩
          cases j with
          | zero => exact ⟨Nat.le_of_not_lt hE, Or.inl hst⟩
          | succ j => exact hcont j (by omega)
        · obtain ⟨k, hk, hEk, hv, hcont⟩ := (ih (fun n => polls (n + 1)) r).mp h
          refine ⟨k + 1, by omega, hEk, hv, fun j hj => ?_⟩
          cases j with
          | zero => exact ⟨Nat.le_of_not_lt hE, Or.inr hst⟩
          | succ j => exact hcont j (by omega)
        · have hr : r0 = r := by
            injection h with h2
          exact ⟨0, Nat.succ_pos n, Nat.le_of_not_lt hE, by rw [hst, hr],
            fun j hj => absurd hj (Nat.not_lt_zero j)⟩
        · exact absurd h (by simp)
    · rintro ⟨k, hk, hEk, hv, hcont⟩
      cases k with
      | zero =>
        have hnE : ¬E < (polls 0).ledgerIdx := by omega
        rw [waitLoop, if_neg hnE, hv]
      | succ k =>
        have h0 := hcont 0 (Nat.succ_pos k)
        have hnE : ¬E < (polls 0).ledgerIdx := by
          have := h0.1
          omega
        rw [waitLoop, if_neg hnE]
        have hrec : waitLoop E s n (fun n => polls (n + 1)) = WaitResult.ok r :=
          (ih (fun n => polls (n + 1)) r).mpr
            ⟨k, by omega, hEk, hv, fun j hj => hcont (j + 1) (by omega)⟩
        rcases h0.2 with hst | hst <;> rw [hst] <;> exact hrec

theorem waitLoop_tookLong_carries (E s : Nat) :
    ∀ (fuel : Nat) (polls : Nat → PollObs) (t : Nat),
      waitLoop E s fuel polls = WaitResult.tookLong t → t = s := by
  intro fuel
  induction fuel with
  | zero =>
    intro polls t h
    exact absurd h (by simp [waitLoop])
  | succ n ih =>
    intro polls t h
    by_cases hE : E < (polls 0).ledgerIdx
    · rw [waitLoop, if_pos hE] at h
      injection h with h2
      exact h2.symm
    · rw [waitLoop, if_neg hE] at h
      rcases hst : (polls 0).status with _ | _ | r | m <;> rw [hst] at h
      · exact ih (fun n => polls (n + 1)) t h
      · exact ih (fun n => polls (n + 1)) t h
      · exact absurd h (by simp)
      · exact absurd h (by simp)

/-- C1: for a transaction with expiry ledger index `E`, the finality wait
fails with the `TOOK_LONG` (Expired) error exactly when some poll observes a
current ledger index exceeding `E` after every earlier poll stayed within `E`
without finding the transaction validated; it succeeds with the validated
transaction's outcome exactly when some poll finds the transaction validated
at a ledger index within `E` after every earlier poll continued; and the
`TOOK_LONG` error always carries the provisional submission result. -/
theorem waitForFinalTransactionOutcome_expiry_spec
    (fuel : Nat) (polls : Nat → PollObs) (E s : Nat) :
    (waitForFinalTransactionOutcome fuel polls (some E) s = WaitResult.tookLong s ↔
      ∃ k, k < fuel ∧ E < (polls k).ledgerIdx ∧
        ∀ j, j < k → pollContinues E (polls j)) ∧
    (∀ r, waitForFinalTransactionOutcome fuel polls (some E) s = WaitResult.ok r ↔
      ∃ k, k < fuel ∧ (polls k).ledgerIdx ≤ E ∧
        (polls k).status = TxPollStatus.foundValidated r ∧
        ∀ j, j < k → pollContinues E (polls j)) ∧
    (∀ t, waitForFinalTransactionOutcome fuel polls (some E) s = WaitResult.tookLong t →
      t = s) :=
  ⟨waitLoop_tookLong_iff E s fuel polls,
    fun r => waitLoop_ok_iff E s fuel polls r,
    fun t => waitLoop_tookLong_carries E s fuel polls t⟩

/-- Witness for C1: with expiry index 10, polls that reach ledger index 11 at
the third poll produce the Expired error carrying the provisional result 42,
and polls that find the transaction validated at index 7 produce the
validated outcome. -/
theorem waitForFinalTransactionOutcome_expiry_spec_witness :
    waitForFinalTransactionOutcome 5 pollsExpire (some 10) 42 = WaitResult.tookLong 42 ∧
    waitForFinalTransactionOutcome 5 pollsValidate (some 10) 42 = WaitResult.ok 99 :=
  ⟨(waitForFinalTransactionOutcome_expiry_spec 5 pollsExpire 10 42).1.mpr
      ⟨2, by omega, by decide, fun j hj => by
        have hj2 : j = 0 ∨ j = 1 := by omega
        rcases hj2 with rfl | rfl
        · exact ⟨by decide, Or.inl (by decide)⟩
        · exact ⟨by decide, Or.inl (by decide)⟩⟩,
    ((waitForFinalTransactionOutcome_expiry_spec 5 pollsValidate 10 42).2.1 99).mpr
      ⟨2, by omega, by decide, by decide, fun j hj => by
        have hj2 : j = 0 ∨ j = 1 := by omega
        rcases hj2 with rfl | rfl
        · exact ⟨by decide, Or.inl (by decide)⟩
        · exact ⟨by decide, Or.inl (by decide)⟩⟩⟩

/-! ### C4: retry with fee escalation -/

theorem retryLoop_length_le (beh : Nat → AttemptOutcome) (u maxA : Nat) :
    ∀ (fuel k fee : Nat), k < maxA →
      (submitWithRetryLoop beh u maxA fuel k fee).1.length ≤ maxA - k := by
  intro fuel
  induction fuel with
  | zero => intro k fee hk; simp [submitWithRetryLoop]
  | succ n ih =>
    intro k fee hk
    rcases hbeh : beh (k + 1) with v | e
    · simp only [submitWithRetryLoop, hbeh]
      rw [if_pos (by omega : k ≤ maxA)]
      simp only [List.length_cons, List.length_nil]
      omega
    · simp only [submitWithRetryLoop, hbeh]
      rw [if_pos (by omega : k ≤ maxA)]
      by_cases hthrow : (k + 1 = maxA ∨ isTerminalCode e = true)
      · rw [if_pos hthrow]
        simp only [List.length_cons, List.length_nil]
        omega
      · rw [if_neg hthrow]
        have hcond : ¬(k + 1 = maxA) := fun h0 => hthrow (Or.inl h0)
        have := ih (k + 1) (if e.status = some "TOOK_LONG" then fee + u else fee)
          (by omega)
        simp only [List.length_cons]
        omega

theorem retryLoop_first_fee (beh : Nat → AttemptOutcome) (u maxA : Nat) :
    ∀ (fuel k fee : Nat), 0 < fuel → k ≤ maxA →
      (submitWithRetryLoop beh u maxA fuel k fee).1[0]? = some fee := by
  intro fuel
  induction fuel with
  | zero => intro k fee h0; omega
  | succ n _ =>
    intro k fee _ hk
    rcases hbeh : beh (k + 1) with v | e
    · simp only [submitWithRetryLoop, hbeh]
      rw [if_pos hk]
      rfl
    · simp only [submitWithRetryLoop, hbeh]
      rw [if_pos hk]
      by_cases hthrow : (k + 1 = maxA ∨ isTerminalCode e = true)
      · rw [if_pos hthrow]
        rfl
      · rw [if_neg hthrow]
        simp

theorem retryLoop_step (beh : Nat → AttemptOutcome) (u maxA : Nat) :
    ∀ (fuel k fee j fj fj1 : Nat),
      (submitWithRetryLoop beh u maxA fuel k fee).1[j]? = some fj →
      (submitWithRetryLoop beh u maxA fuel k fee).1[j + 1]? = some fj1 →
      ∃ e, beh (k + j + 1) = AttemptOutcome.err e ∧ isTerminalCode e = false ∧
        k + j + 1 ≠ maxA ∧
        fj1 = fj + (if e.status = some "TOOK_LONG" then u else 0) := by
  intro fuel
  induction fuel with
  | zero =>
    intro k fee j fj fj1 h1 h2
    simp [submitWithRetryLoop] at h1
  | succ n ih =>
    intro k fee j fj fj1 h1 h2
    by_cases hk : k ≤ maxA
    · rcases hbeh : beh (k + 1) with v | e
      · simp only [submitWithRetryLoop, hbeh] at h2
        rw [if_pos hk] at h2
        simp at h2
      · simp only [submitWithRetryLoop, hbeh] at h1 h2
        rw [if_pos hk] at h1 h2
        by_cases hthrow : (k + 1 = maxA ∨ isTerminalCode e = true)
        · rw [if_pos hthrow] at h2
          simp at h2
        · rw [if_neg hthrow] at h1 h2
          cases j with
          | zero =>
            simp only [List.getElem?_cons_zero, Option.some.injEq] at h1
            subst h1
            have hterm : isTerminalCode e = false := by
              cases hT : isTerminalCode e
              · rfl
              · exact absurd (Or.inr hT) hthrow
            have hne : k + 0 + 1 ≠ maxA := by
              intro h0
              exact hthrow (Or.inl (by omega))
            refine ⟨e, by simpa using hbeh, hterm, hne, ?_⟩
            simp only [List.getElem?_cons_succ] at h2
            rcases Nat.eq_zero_or_pos n with rfl | hn
            · simp [submitWithRetryLoop] at h2
            · by_cases hk2 : k + 1 ≤ maxA
              · have hfirst := retryLoop_first_fee beh u maxA n (k + 1)
                  (if e.status = some "TOOK_LONG" then fee + u else fee) hn hk2
                rw [hfirst] at h2
                injection h2 with h2
                subst h2
                by_cases hT : e.status = some "TOOK_LONG"
                · simp [hT]
                · simp [hT]
              · rcases n with _ | n2
                · omega
                · simp only [submitWithRetryLoop] at h2
                  rw [if_neg hk2] at h2
                  simp at h2
          | succ j =>
            simp only [List.getElem?_cons_succ] at h1 h2
            obtain ⟨e2, he2, hterm2, hne2, hfee2⟩ := ih (k + 1)
              (if e.status = some "TOOK_LONG" then fee + u else fee) j fj fj1 h1 h2
            refine ⟨e2, ?_, hterm2, ?_, hfee2⟩
            · have harith : k + 1 + j + 1 = k + (j + 1) + 1 := by omega
              rw [← harith]
              exact he2
            · intro h0
              exact hne2 (by omega)
    · simp only [submitWithRetryLoop] at h1
      rw [if_neg hk] at h1
      simp at h1

theorem retryLoop_terminal (beh : Nat → AttemptOutcome) (u maxA : Nat) :
    ∀ (fuel k fee j : Nat) (e : JsSubmitError),
      j < (submitWithRetryLoop beh u maxA fuel k fee).1.length →
      beh (k + j + 1) = AttemptOutcome.err e → isTerminalCode e = true →
      (submitWithRetryLoop beh u maxA fuel k fee).1.length = j + 1 ∧
        (submitWithRetryLoop beh u maxA fuel k fee).2 = RetryResult.thrown e := by
  intro fuel
  induction fuel with
  | zero =>
    intro k fee j e hj
    simp [submitWithRetryLoop] at hj
  | succ n ih =>
    intro k fee j e hj hbehj hterm
    by_cases hk : k ≤ maxA
    · rcases hbeh : beh (k + 1) with v | e0
      · simp only [submitWithRetryLoop, hbeh] at hj ⊢
        rw [if_pos hk] at hj ⊢
        simp only [List.length_cons, List.length_nil] at hj
        have hj0 : j = 0 := by omega
        subst hj0
        rw [Nat.add_zero] at hbehj
        rw [hbehj] at hbeh
        exact absurd hbeh (by simp)
      · simp only [submitWithRetryLoop, hbeh] at hj ⊢
        rw [if_pos hk] at hj ⊢
        by_cases hthrow : (k + 1 = maxA ∨ isTerminalCode e0 = true)
        · rw [if_pos hthrow] at hj ⊢
          simp only [List.length_cons, List.length_nil] at hj
          have hj0 : j = 0 := by omega
          subst hj0
          rw [Nat.add_zero] at hbehj
          rw [hbehj] at hbeh
          injection hbeh with hbeh2
          subst hbeh2
          exact ⟨rfl, rfl⟩
        · rw [if_neg hthrow] at hj ⊢
          cases j with
          | zero =>
            rw [Nat.add_zero] at hbehj
            rw [hbehj] at hbeh
            injection hbeh with hbeh2
            subst hbeh2
            exact absurd (Or.inr hterm) hthrow
          | succ j =>
            have hj2 : j < (submitWithRetryLoop beh u maxA n (k + 1)
                (if e0.status = some "TOOK_LONG" then fee + u else fee)).1.length := by
              simpa using hj
            have hbehj2 : beh (k + 1 + j + 1) = AttemptOutcome.err e := by
              have harith : k + 1 + j + 1 = k + (j + 1) + 1 := by omega
              rw [harith]
              exact hbehj
            obtain ⟨hlen, hres⟩ := ih (k + 1)
              (if e0.status = some "TOOK_LONG" then fee + u else fee) j e hj2 hbehj2 hterm
            refine ⟨?_, hres⟩
            simp only [List.length_cons, hlen]
    · simp only [submitWithRetryLoop] at hj
      rw [if_neg hk] at hj
      simp at hj

theorem retryLoop_retries (beh : Nat → AttemptOutcome) (u maxA : Nat) :
    ∀ (fuel k fee j : Nat) (e : JsSubmitError),
      maxA - k < fuel → k < maxA →
      j < (submitWithRetryLoop beh u maxA fuel k fee).1.length →
      beh (k + j + 1) = AttemptOutcome.err e → isTerminalCode e = false →
      k + j + 1 ≠ maxA →
      j + 1 < (submitWithRetryLoop beh u maxA fuel k fee).1.length := by
  intro fuel
  induction fuel with
  | zero =>
    intro k fee j e hfuel
    omega
  | succ n ih =>
    intro k fee j e hfuel hk hj hbehj hterm hne
    rcases hbeh : beh (k + 1) with v | e0
    · simp only [submitWithRetryLoop, hbeh] at hj
      rw [if_pos (by omega : k ≤ maxA)] at hj
      simp only [List.length_cons, List.length_nil] at hj
      have hj0 : j = 0 := by omega
      subst hj0
      rw [Nat.add_zero] at hbehj
      rw [hbehj] at hbeh
      exact absurd hbeh (by simp)
    · simp only [submitWithRetryLoop, hbeh] at hj ⊢
      rw [if_pos (by omega : k ≤ maxA)] at hj ⊢
      by_cases hthrow : (k + 1 = maxA ∨ isTerminalCode e0 = true)
      · rw [if_pos hthrow] at hj
        simp only [List.length_cons, List.length_nil] at hj
        have hj0 : j = 0 := by omega
        subst hj0
        rw [Nat.add_zero] at hbehj
        rw [hbehj] at hbeh
        injection hbeh with hbeh2
        subst hbeh2
        rw [Nat.add_zero] at hne
        rcases hthrow with h0 | h0
        · exact (hne h0).elim
        · rw [hterm] at h0
          exact Bool.noConfusion h0
      · rw [if_neg hthrow] at hj ⊢
        have hcond : k + 1 ≠ maxA := fun h0 => hthrow (Or.inl h0)
        have hk2 : k + 1 < maxA := by omega
        cases j with
        | zero =>
          have hfirst := retryLoop_first_fee beh u maxA n (k + 1)
            (if e0.status = some "TOOK_LONG" then fee + u else fee) (by omega) (by omega)
          have hpos : 0 < (submitWithRetryLoop beh u maxA n (k + 1)
              (if e0.status = some "TOOK_LONG" then fee + u else fee)).1.length := by
            rcases List.getElem?_eq_some.mp hfirst with ⟨hlt, -⟩
            exact hlt
          simpa using hpos
        | succ j =>
          have hj2 : j < (submitWithRetryLoop beh u maxA n (k + 1)
              (if e0.status = some "TOOK_LONG" then fee + u else fee)).1.length := by
            simpa using hj
          have hbehj2 : beh (k + 1 + j + 1) = AttemptOutcome.err e := by
            have harith : k + 1 + j + 1 = k + (j + 1) + 1 := by omega
            rw [harith]
            exact hbehj
          have := ih (k + 1) (if e0.status = some "TOOK_LONG" then fee + u else fee) j e
            (by omega) hk2 hj2 hbehj2 hterm (by omega)
          simpa using this

/-- C4: for every retry-options record and every callback behaviour, the
callback is attempted at most `maxAttempts` times starting from a zero fee
uplift; a failure with one of the terminal duplicate/past-sequence codes is
rethrown immediately with no further attempt; any other failure before the
last configured attempt leads to a further attempt; and between consecutive
attempts the fee uplift grows by the configured increment exactly when the
failure carried the `TOOK_LONG` (Expired) status. -/
theorem submitWithRetry_spec (opts : RetryOptions) (beh : Nat → AttemptOutcome) :
    ((submitWithRetry opts beh).1.length ≤ maxAttemptsOf opts) ∧
    ((submitWithRetry opts beh).1[0]? = some 0) ∧
    (∀ j e, j < (submitWithRetry opts beh).1.length →
      beh (j + 1) = AttemptOutcome.err e → isTerminalCode e = true →
      (submitWithRetry opts beh).1.length = j + 1 ∧
        (submitWithRetry opts beh).2 = RetryResult.thrown e) ∧
    (∀ j e, j < (submitWithRetry opts beh).1.length →
      beh (j + 1) = AttemptOutcome.err e → isTerminalCode e = false →
      j + 1 ≠ maxAttemptsOf opts →
      j + 1 < (submitWithRetry opts beh).1.length) ∧
    (∀ j fj fj1, (submitWithRetry opts beh).1[j]? = some fj →
      (submitWithRetry opts beh).1[j + 1]? = some fj1 →
      ∃ e, beh (j + 1) = AttemptOutcome.err e ∧ isTerminalCode e = false ∧
        j + 1 ≠ maxAttemptsOf opts ∧
        fj1 = fj + (if e.status = some "TOOK_LONG" then opts.feeUplift else 0)) := by
  have hmax : 1 ≤ maxAttemptsOf opts := by
    unfold maxAttemptsOf
    split <;> omega
  refine ⟨?_, ?_, ?_, ?_, ?_⟩
  · have := retryLoop_length_le beh opts.feeUplift (maxAttemptsOf opts)
      (maxAttemptsOf opts + 1) 0 0 (by omega)
    simpa [submitWithRetry] using this
  · exact retryLoop_first_fee beh opts.feeUplift (maxAttemptsOf opts)
      (maxAttemptsOf opts + 1) 0 0 (by omega) (by omega)
  · intro j e hj hbehj hterm
    exact retryLoop_terminal beh opts.feeUplift (maxAttemptsOf opts)
      (maxAttemptsOf opts + 1) 0 0 j e hj (by rw [Nat.zero_add]; exact hbehj) hterm
  · intro j e hj hbehj hterm hne
    exact retryLoop_retries beh opts.feeUplift (maxAttemptsOf opts)
      (maxAttemptsOf opts + 1) 0 0 j e (by omega) (by omega) hj
      (by rw [Nat.zero_add]; exact hbehj) hterm (by omega)
  · intro j fj fj1 h1 h2
    obtain ⟨e, he, hterm, hne, hfee⟩ := retryLoop_step beh opts.feeUplift
      (maxAttemptsOf opts) (maxAttemptsOf opts + 1) 0 0 j fj fj1 h1 h2
    rw [Nat.zero_add] at he hne
    exact ⟨e, he, hterm, hne, hfee⟩

/-- Witness for C4: with two attempts and fee-uplift increment 5, a first
attempt failing with `TOOK_LONG` is followed by a second attempt whose fee
uplift grew by exactly 5. -/
theorem submitWithRetry_spec_witness :
    ∃ e, behUplift (0 + 1) = AttemptOutcome.err e ∧ isTerminalCode e = false ∧
      (0 : Nat) + 1 ≠ maxAttemptsOf optsTwoAttempts ∧
      (5 : Nat) = 0 + (if e.status = some "TOOK_LONG" then optsTwoAttempts.feeUplift else 0) :=
  (submitWithRetry_spec optsTwoAttempts behUplift).2.2.2.2 0 0 5 (by decide) (by decide)
